import Mathlib

/-
Verification of the TileDB-Py filter pipeline wrapper (src/tiledb/filter.py).

The Python source defines a dataclass `FilterList` wrapping the native
`lt.FilterList`.  Its `append` method validates the argument with an
`isinstance(filter, Filter)` guard, maps the argument's concrete class to a
`lt.FilterType` enum value through the dictionary `filtype_cls_to_enum`
(with `NoOpFilter` mapped to the `None` sentinel), builds a fresh internal
`lt.Filter`, copies the option values (compression level, max windows) into
it, and pushes it onto the native list.  `__post_init__` creates the empty
native list and appends the `filters` argument one element at a time.

The native apply/unapply chunking machinery is not part of the Python
source; it is modelled from the specification (see the definitions marked
"Modelled from the spec").
-/
namespace TileDBPy

/-- The `lt.FilterType` enumeration: the twelve real enum values that appear
as values of `filtype_cls_to_enum` in `FilterList.append`. -/
inductive FilterType where
  | GZIP
  | ZSTD
  | LZ4
  | BZIP2
  | RLE
  | DOUBLE_DELTA
  | BIT_WIDTH_REDUCTION
  | BITSHUFFLE
  | BYTESHUFFLE
  | POSITIVE_DELTA
  | CHECKSUM_MD5
  | CHECKSUM_SHA256
  deriving DecidableEq, Repr, Fintype

/-- The concrete Python classes whose instances pass the
`isinstance(filter, Filter)` guard: the thirteen classes imported from
`libtiledb` that appear as keys of `filtype_cls_to_enum`, plus
`UserDefined`, standing for any user-defined subclass of `Filter` whose
exact type is not a key of the lookup table. -/
inductive FilterClass where
  | GzipFilter
  | ZstdFilter
  | LZ4Filter
  | Bzip2Filter
  | RleFilter
  | DoubleDeltaFilter
  | BitWidthReductionFilter
  | BitShuffleFilter
  | ByteShuffleFilter
  | PositiveDeltaFilter
  | ChecksumMD5Filter
  | ChecksumSHA256Filter
  | NoOpFilter
  | UserDefined
  deriving DecidableEq, Repr, Fintype

/-- A Python value passed to `FilterList.append`: either an instance of the
`Filter` base class (carrying its concrete class together with the current
values of its `level` and `window` attributes) or some other object that is
not a `Filter` instance. -/
inductive PyObj where
  | filt (cls : FilterClass) (level : Int) (window : Nat)
  | nonFilter
  deriving DecidableEq, Repr

/-- The result of the `isinstance(filter, Filter)` test at filter.py:91. -/
def isFilterInstance : PyObj → Bool
  | .filt _ _ _ => true
  | .nonFilter => false

/-- The Python exceptions `FilterList.append` can raise: the explicit
`ValueError` of the isinstance guard (filter.py:92) and the `KeyError` a
failed dictionary lookup raises (filter.py:109). -/
inductive PyError where
  | valueError (msg : String)
  | keyError
  deriving DecidableEq, Repr

/-- The dictionary `filtype_cls_to_enum` of `FilterList.append`
(filter.py:94-108).  The outer `Option` is dictionary membership (a missing
key raises `KeyError`); the inner `Option` is the stored value, with
`NoOpFilter` bound to Python `None` rather than a real enum value. -/
def filtype_cls_to_enum : FilterClass → Option (Option FilterType)
  | .GzipFilter => some (some .GZIP)
  | .ZstdFilter => some (some .ZSTD)
  | .LZ4Filter => some (some .LZ4)
  | .Bzip2Filter => some (some .BZIP2)
  | .RleFilter => some (some .RLE)
  | .DoubleDeltaFilter => some (some .DOUBLE_DELTA)
  | .BitWidthReductionFilter => some (some .BIT_WIDTH_REDUCTION)
  | .BitShuffleFilter => some (some .BITSHUFFLE)
  | .ByteShuffleFilter => some (some .BYTESHUFFLE)
  | .PositiveDeltaFilter => some (some .POSITIVE_DELTA)
  | .ChecksumMD5Filter => some (some .CHECKSUM_MD5)
  | .ChecksumSHA256Filter => some (some .CHECKSUM_SHA256)
  | .NoOpFilter => some none
  | .UserDefined => none

/-- Modelled from the spec: the `isinstance(filter, CompressionFilter)`
test at filter.py:112.  The `CompressionFilter` class hierarchy lives in
`libtiledb`, which is not part of the source; per the spec the compression
category (the kinds carrying a "level" option) is GZIP, ZSTD, LZ4, BZIP2,
RLE and DOUBLE_DELTA. -/
def isCompressionFilter : FilterClass → Bool
  | .GzipFilter => true
  | .ZstdFilter => true
  | .LZ4Filter => true
  | .Bzip2Filter => true
  | .RleFilter => true
  | .DoubleDeltaFilter => true
  | _ => false

/-- The internal `lt.Filter` object built by `append`: the filter type
passed to the constructor (filter.py:110; `none` is the Python `None`
sentinel used for `NoOpFilter`) together with the values set through
`fil.set_option` for the three `lt.FilterOption` keys used by the source
(filter.py:112-121). -/
structure LtFilter where
  filtype : Option FilterType
  compressionLevel : Option Int
  bitWidthMaxWindow : Option Nat
  positiveDeltaMaxWindow : Option Nat
  deriving DecidableEq, Repr

/-- `FilterList.append` (filter.py:83-123), acting on the native list state
(the sequence of internal `lt.Filter` objects added so far).  It either
raises (`Except.error`) or returns the new native state with one fresh
internal stage pushed at the end. -/
def FilterList.append (st : List LtFilter) (f : PyObj) :
    Except PyError (List LtFilter) :=
  match f with
  | .nonFilter =>
      .error (.valueError "filter argument must be a TileDB filter objects")
  | .filt cls level window =>
      match filtype_cls_to_enum cls with
      | none => .error .keyError
      | some filtype =>
          let fil : LtFilter :=
            if isCompressionFilter cls then
              ⟨filtype, some level, none, none⟩
            else if cls = .BitWidthReductionFilter then
              ⟨filtype, none, some window, none⟩
            else if cls = .PositiveDeltaFilter then
              ⟨filtype, none, none, some window⟩
            else
              ⟨filtype, none, none, none⟩
          .ok (st ++ [fil])

/-- The loop of `__post_init__` (filter.py:69-71): append each element of
`filters` in order, stopping at the first exception.  Returns the native
state reached together with the exception, if any: in Python the exception
propagates but the already-performed `add_filter` calls are not undone. -/
def appendAll (st : List LtFilter) : List PyObj → List LtFilter × Option PyError
  | [] => (st, none)
  | f :: fs =>
      match FilterList.append st f with
      | .ok st' => appendAll st' fs
      | .error e => (st, some e)

/-- The Python-side `FilterList` object: the dataclass fields `filters` and
`chunksize` (both defaulting to `None`, filter.py:58-59) plus the state of
the native `lt.FilterList` it subclasses.  The context fields are omitted:
they carry no data relevant to the pipeline contents. -/
structure FilterList where
  filters : Option (List PyObj)
  chunksize : Option Int
  nativeStages : List LtFilter
  deriving DecidableEq, Repr

/-- `__post_init__` (filter.py:64-71): initialize the empty native list,
then, if `filters` is truthy (neither `None` nor empty), append each
element in order.  Returns the object state reached and the first exception
raised, if any.  `chunksize` is stored as a plain dataclass field and is
neither checked nor forwarded anywhere. -/
def postInit (filters : Option (List PyObj)) (chunksize : Option Int) :
    FilterList × Option PyError :=
  match filters with
  | none => (⟨filters, chunksize, []⟩, none)
  | some fs =>
      if fs = [] then (⟨filters, chunksize, []⟩, none)
      else
        let r := appendAll [] fs
        (⟨filters, chunksize, r.1⟩, r.2)

/-- `true` exactly when `append` accepts the object: it is a `Filter`
instance and its concrete class is a key of `filtype_cls_to_enum`. -/
def appendable : PyObj → Bool
  | .filt cls _ _ => (filtype_cls_to_enum cls).isSome
  | .nonFilter => false

/-- The internal `lt.Filter` that `append` constructs from an appendable
argument (junk value on non-appendable arguments). -/
def stageOf : PyObj → LtFilter
  | .nonFilter => ⟨none, none, none, none⟩
  | .filt cls level window =>
      match filtype_cls_to_enum cls with
      | none => ⟨none, none, none, none⟩
      | some filtype =>
          if isCompressionFilter cls then
            ⟨filtype, some level, none, none⟩
          else if cls = .BitWidthReductionFilter then
            ⟨filtype, none, some window, none⟩
          else if cls = .PositiveDeltaFilter then
            ⟨filtype, none, none, some window⟩
          else
            ⟨filtype, none, none, none⟩

/-- Modelled from the spec: the error class `CorruptData` raised by `decode`
when a checksum or metadata shape does not match. -/
inductive DecodeError where
  | corruptData
  deriving DecidableEq, Repr

/-- Modelled from the spec: the uniform ChunkCodec capability each stage
kind implements — `encode` maps one chunk of bytes to transformed bytes
plus a metadata record, `decode` consumes transformed bytes and the
metadata record to reconstruct the chunk, failing with `CorruptData` on a
shape or checksum mismatch.  Bytes and metadata are byte lists. -/
structure ChunkCodec where
  encode : List Nat → List Nat × List Nat
  decode : List Nat → List Nat → Except DecodeError (List Nat)

/-- The ChunkCodec contract of the spec: decoding an encoded chunk with the
metadata the encode produced reconstructs the chunk exactly. -/
def ChunkCodec.Lawful (c : ChunkCodec) : Prop :=
  ∀ b : List Nat, c.decode (c.encode b).1 (c.encode b).2 = .ok b

/-- Modelled from the spec: the no-op adapter is an identity pass with no
metadata. -/
def identityCodec : ChunkCodec where
  encode := fun b => (b, [])
  decode := fun b _ => .ok b

/-- Modelled from the spec: a checksum adapter computes a digest over the
chunk, stores it as metadata, and never alters the byte content; `decode`
recomputes the digest and fails with `CorruptData` on mismatch. -/
def checksumCodec (digest : List Nat → Nat) : ChunkCodec where
  encode := fun b => (b, [digest b])
  decode := fun b m => if m = [digest b] then .ok b else .error .corruptData

/-- Modelled from the spec: run every stage of the pipeline over one chunk
in list order, forward direction; each stage consumes the previous stage's
output and contributes one metadata record, collected in stage order. -/
def applyStages : List ChunkCodec → List Nat → List Nat × List (List Nat)
  | [], chunk => (chunk, [])
  | c :: cs, chunk =>
      let r1 := c.encode chunk
      let r2 := applyStages cs r1.1
      (r2.1, r1.2 :: r2.2)

/-- Modelled from the spec: invert one chunk by running the stages in
reverse list order, each consuming its own metadata record; fails with
`CorruptData` when the metadata shape does not match the stage list. -/
def unapplyStages :
    List ChunkCodec → List Nat → List (List Nat) → Except DecodeError (List Nat)
  | [], chunk, [] => .ok chunk
  | c :: cs, chunk, m :: ms =>
      match unapplyStages cs chunk ms with
      | .ok inner => c.decode inner m
      | .error e => .error e
  | _, _, _ => .error .corruptData

/-- Modelled from the spec: split a buffer into chunks of size `n`, the
last chunk possibly shorter.  Yields no chunks when the buffer is empty or
the chunk size is zero. -/
def chunkSplit (n : Nat) (b : List Nat) : List (List Nat) :=
  if h : b = [] ∨ n = 0 then []
  else b.take n :: chunkSplit n (b.drop n)
termination_by b.length
decreasing_by
  simp only [not_or] at h
  have h1 : 0 < n := Nat.pos_of_ne_zero h.2
  have h2 : 0 < b.length := List.length_pos.mpr h.1
  simp only [List.length_drop]
  omega

/-- Modelled from the spec: the per-chunk record of `perStageMetadata` —
the length of the chunk's transformed output (needed to recover chunk
boundaries from the concatenated output) and the per-stage metadata
records in stage order. -/
structure ChunkMeta where
  outLen : Nat
  stageMetas : List (List Nat)
  deriving DecidableEq, Repr

/-- Modelled from the spec: recover the transformed chunks from the
concatenated output using the recorded output lengths; fails with
`CorruptData` when the byte count does not match. -/
def splitByLens : List Nat → List Nat → Except DecodeError (List (List Nat))
  | [], b => if b = [] then .ok [] else .error .corruptData
  | n :: ns, b =>
      if b.length < n then .error .corruptData
      else
        match splitByLens ns (b.drop n) with
        | .ok rest => .ok (b.take n :: rest)
        | .error e => .error e

/-- Modelled from the spec: `FilterPipeline.apply` — split the buffer into
chunks of the hint size, run every stage over each chunk in list order,
concatenate the per-chunk outputs in chunk order and return them together
with the ordered per-chunk metadata. -/
def pipelineApply (cs : List ChunkCodec) (csize : Nat) (b : List Nat) :
    List Nat × List ChunkMeta :=
  let results := (chunkSplit csize b).map (applyStages cs)
  ((results.map Prod.fst).flatten,
   results.map (fun r => ⟨r.1.length, r.2⟩))

/-- Modelled from the spec: decode each recovered chunk with its own
metadata record, in chunk order. -/
def decodeChunks (cs : List ChunkCodec) :
    List (List Nat) → List (List (List Nat)) →
      Except DecodeError (List (List Nat))
  | [], [] => .ok []
  | ch :: chs, m :: ms =>
      match unapplyStages cs ch m with
      | .ok o =>
          match decodeChunks cs chs ms with
          | .ok os => .ok (o :: os)
          | .error e => .error e
      | .error e => .error e
  | _, _ => .error .corruptData

/-- Modelled from the spec: `FilterPipeline.unapply` — recover the chunk
boundaries from the metadata, run the stages in reverse list order on each
chunk consuming its metadata, and concatenate the reconstructed chunks. -/
def pipelineUnapply (cs : List ChunkCodec) (t : List Nat)
    (ms : List ChunkMeta) : Except DecodeError (List Nat) :=
  match splitByLens (ms.map ChunkMeta.outLen) t with
  | .error e => .error e
  | .ok chunks =>
      match decodeChunks cs chunks (ms.map ChunkMeta.stageMetas) with
      | .ok origs => .ok origs.flatten
      | .error e => .error e

/-- The codecs of a pipeline's stages, in stage order.  The binding from an
internal stage to its ChunkCodec delegates to external codec libraries per
the spec, so it is a parameter constrained by the ChunkCodec contract. -/
def stageCodecs (codecOf : LtFilter → ChunkCodec) (p : FilterList) :
    List ChunkCodec :=
  p.nativeStages.map codecOf

/-- `true` exactly when the result of `append` is the isinstance-guard
failure (the explicit exception of filter.py:92). -/
def isGuardFailure : Except PyError (List LtFilter) → Bool
  | .error (.valueError _) => true
  | _ => false

theorem append_ok_of_appendable (st : List LtFilter) (f : PyObj)
    (h : appendable f = true) :
    FilterList.append st f = .ok (st ++ [stageOf f]) := by
  cases f with
  | nonFilter => simp [appendable] at h
  | filt cls level window =>
      simp only [appendable, Option.isSome_iff_exists] at h
      obtain ⟨ft, hft⟩ := h
      simp [FilterList.append, stageOf, hft]

theorem identityCodec_lawful : identityCodec.Lawful := fun _ => rfl

theorem checksumCodec_lawful (digest : List Nat → Nat) :
    (checksumCodec digest).Lawful := by
  intro b
  simp [checksumCodec]

theorem unapplyStages_applyStages (cs : List ChunkCodec)
    (h : ∀ c ∈ cs, c.Lawful) (chunk : List Nat) :
    unapplyStages cs (applyStages cs chunk).1 (applyStages cs chunk).2 =
      .ok chunk := by
  induction cs generalizing chunk with
  | nil => rfl
  | cons c cs ih =>
      have hc : c.Lawful := h c (List.mem_cons_self c cs)
      have hrest : ∀ d ∈ cs, d.Lawful := fun d hd => h d (List.mem_cons_of_mem c hd)
      simp only [applyStages, unapplyStages]
      rw [ih hrest (c.encode chunk).1]
      exact hc chunk

theorem chunkSplit_flatten (n : Nat) (b : List Nat) :
    0 < n → (chunkSplit n b).flatten = b := by
  induction b using chunkSplit.induct n with
  | case1 b h =>
      intro hn
      rcases h with h | h
      · simp [chunkSplit, h]
      · omega
  | case2 b h ih =>
      intro hn
      rw [chunkSplit, dif_neg h]
      simp [List.flatten_cons, ih hn, List.take_append_drop]

theorem splitByLens_flatten (xs : List (List Nat)) :
    splitByLens (xs.map List.length) xs.flatten = .ok xs := by
  induction xs with
  | nil => rfl
  | cons x xs ih =>
      simp only [List.map_cons, List.flatten_cons, splitByLens]
      rw [if_neg (by simp only [List.length_append]; omega)]
      rw [List.drop_left, ih, List.take_left]

theorem decodeChunks_apply (cs : List ChunkCodec) (h : ∀ c ∈ cs, c.Lawful)
    (l : List (List Nat)) :
    decodeChunks cs ((l.map (applyStages cs)).map Prod.fst)
      ((l.map (applyStages cs)).map Prod.snd) = .ok l := by
  induction l with
  | nil => rfl
  | cons x xs ih =>
      simp only [List.map_cons, decodeChunks]
      rw [unapplyStages_applyStages cs h x, ih]

theorem pipeline_roundtrip (cs : List ChunkCodec) (h : ∀ c ∈ cs, c.Lawful)
    (csize : Nat) (hcs : 0 < csize) (b : List Nat) :
    pipelineUnapply cs (pipelineApply cs csize b).1
      (pipelineApply cs csize b).2 = .ok b := by
  simp only [pipelineApply, pipelineUnapply]
  have hlens :
      (((chunkSplit csize b).map (applyStages cs)).map
          (fun r => (⟨r.1.length, r.2⟩ : ChunkMeta))).map ChunkMeta.outLen =
        ((((chunkSplit csize b).map (applyStages cs)).map Prod.fst).map
          List.length) := by
    simp [List.map_map]
  have hmetas :
      (((chunkSplit csize b).map (applyStages cs)).map
          (fun r => (⟨r.1.length, r.2⟩ : ChunkMeta))).map ChunkMeta.stageMetas =
        ((chunkSplit csize b).map (applyStages cs)).map Prod.snd := by
    simp [List.map_map]
  rw [hlens, hmetas, splitByLens_flatten]
  simp only [decodeChunks_apply cs h, chunkSplit_flatten csize b hcs]

theorem appendAll_ok (fs : List PyObj) (st : List LtFilter)
    (h : ∀ x ∈ fs, appendable x = true) :
    appendAll st fs = (st ++ fs.map stageOf, none) := by
  induction fs generalizing st with
  | nil => simp [appendAll]
  | cons f fs ih =>
      simp only [appendAll,
        append_ok_of_appendable st f (h f (List.mem_cons_self f fs))]
      rw [ih (st ++ [stageOf f]) (fun x hx => h x (List.mem_cons_of_mem f hx))]
      simp

theorem appendAll_guard_error (pre rest : List PyObj) (st : List LtFilter)
    (h : ∀ x ∈ pre, appendable x = true) :
    appendAll st (pre ++ PyObj.nonFilter :: rest) =
      (st ++ pre.map stageOf,
       some (.valueError "filter argument must be a TileDB filter objects")) := by
  induction pre generalizing st with
  | nil => simp [appendAll, FilterList.append]
  | cons f fs ih =>
      simp only [List.cons_append, appendAll, List.append_eq,
        append_ok_of_appendable st f (h f (List.mem_cons_self f _))]
      rw [ih (st ++ [stageOf f]) (fun x hx => h x (List.mem_cons_of_mem f hx))]
      simp

/-- C1: for every valid pipeline and every byte buffer `b`, running
`unapply` on the result of `apply b` with the per-stage metadata it
produced reconstructs `b` exactly, provided the stage codecs satisfy the
ChunkCodec contract (stages and metadata uncorrupted) and the chunk size
is positive. -/
theorem C1_unapply_apply_roundtrip (codecOf : LtFilter → ChunkCodec)
    (hlaw : ∀ f : LtFilter, (codecOf f).Lawful) (p : FilterList)
    (csize : Nat) (hcs : 0 < csize) (b : List Nat) :
    pipelineUnapply (stageCodecs codecOf p)
      (pipelineApply (stageCodecs codecOf p) csize b).1
      (pipelineApply (stageCodecs codecOf p) csize b).2 = .ok b :=
  pipeline_roundtrip (stageCodecs codecOf p)
    (fun c hc => by
      obtain ⟨f, _, hf⟩ := List.mem_map.mp hc
      exact hf ▸ hlaw f)
    csize hcs b

theorem C1_witness :
    pipelineUnapply
      (stageCodecs (fun _ => identityCodec)
        (postInit (some [PyObj.filt .GzipFilter 5 0,
                         PyObj.filt .ChecksumMD5Filter 0 0]) none).1)
      (pipelineApply
        (stageCodecs (fun _ => identityCodec)
          (postInit (some [PyObj.filt .GzipFilter 5 0,
                           PyObj.filt .ChecksumMD5Filter 0 0]) none).1)
        4 [1, 2, 3, 4, 5, 6]).1
      (pipelineApply
        (stageCodecs (fun _ => identityCodec)
          (postInit (some [PyObj.filt .GzipFilter 5 0,
                           PyObj.filt .ChecksumMD5Filter 0 0]) none).1)
        4 [1, 2, 3, 4, 5, 6]).2 = .ok [1, 2, 3, 4, 5, 6] :=
  C1_unapply_apply_roundtrip (fun _ => identityCodec) (fun _ _ => rfl) _ 4
    (by decide) _

/-- C2: `append x` fails with the isinstance-guard validation error (the
spec's TypeError-class error, raised at filter.py:92) exactly when `x` is
not a `Filter` instance; on any `Filter` instance the guard error is never
raised (a `Filter` instance may still fail, but only with `KeyError`,
which is not the guard error). -/
theorem C2_append_guard (st : List LtFilter) (x : PyObj) :
    isGuardFailure (FilterList.append st x) = !isFilterInstance x := by
  cases x with
  | nonFilter => rfl
  | filt cls l w =>
      cases hft : filtype_cls_to_enum cls with
      | none => simp [FilterList.append, hft, isGuardFailure, isFilterInstance]
      | some ft => simp [FilterList.append, hft, isGuardFailure, isFilterInstance]

/-- C3: both at construction and through `append`, stages are stored in
exactly the order given — the native list after construction is the map of
the stage conversion over the argument sequence, and each `append` pushes
exactly one stage at the end — with no restriction on duplicate kinds. -/
theorem C3_order_preserved :
    (∀ (st : List LtFilter) (x : PyObj), appendable x = true →
        FilterList.append st x = .ok (st ++ [stageOf x])) ∧
    ∀ (fs : List PyObj) (cz : Option Int),
      (∀ x ∈ fs, appendable x = true) →
        (postInit (some fs) cz).2 = none ∧
        (postInit (some fs) cz).1.nativeStages = fs.map stageOf := by
  refine ⟨append_ok_of_appendable, fun fs cz h => ?_⟩
  by_cases hfs : fs = []
  · subst hfs; exact ⟨rfl, rfl⟩
  · simp only [postInit, if_neg hfs, appendAll_ok fs [] h]
    simp

theorem C3_witness :
    (postInit (some [PyObj.filt .ChecksumMD5Filter 0 0,
                     PyObj.filt .ChecksumMD5Filter 0 0]) none).2 = none ∧
    (postInit (some [PyObj.filt .ChecksumMD5Filter 0 0,
                     PyObj.filt .ChecksumMD5Filter 0 0]) none).1.nativeStages =
      [⟨some .CHECKSUM_MD5, none, none, none⟩,
       ⟨some .CHECKSUM_MD5, none, none, none⟩] :=
  have h := C3_order_preserved.2
    [PyObj.filt .ChecksumMD5Filter 0 0, PyObj.filt .ChecksumMD5Filter 0 0]
    none (by decide)
  ⟨h.1, by rw [h.2]; decide⟩

/-- C4: an empty pipeline is valid — construction with `filters=None` (or
an empty sequence) succeeds with zero stages, and `apply` on it returns the
buffer unchanged for every buffer and positive chunk size. -/
theorem C4_empty_pipeline (cz : Option Int) (codecOf : LtFilter → ChunkCodec)
    (csize : Nat) (hcs : 0 < csize) (b : List Nat) :
    (postInit none cz).2 = none ∧
    (postInit none cz).1.nativeStages = [] ∧
    (postInit (some []) cz).2 = none ∧
    (postInit (some []) cz).1.nativeStages = [] ∧
    (pipelineApply (stageCodecs codecOf (postInit none cz).1) csize b).1 = b := by
  refine ⟨rfl, rfl, rfl, rfl, ?_⟩
  show (((chunkSplit csize b).map (applyStages [])).map Prod.fst).flatten = b
  rw [List.map_map,
    show (Prod.fst ∘ applyStages ([] : List ChunkCodec)) = id from rfl,
    List.map_id]
  exact chunkSplit_flatten csize b hcs

theorem C4_witness :
    (postInit none none).2 = none ∧
    (postInit none none).1.nativeStages = [] ∧
    (pipelineApply (stageCodecs (fun _ => identityCodec) (postInit none none).1)
      3 [9, 8, 7, 6]).1 = [9, 8, 7, 6] :=
  have h := C4_empty_pipeline none (fun _ => identityCodec) 3 (by decide)
    [9, 8, 7, 6]
  ⟨h.1, h.2.1, h.2.2.2.2⟩

/-- C5: a successful `append` binds one fresh internal stage whose fields
are a pure function of the argument's class and current option values (so
later mutation of the caller's object cannot affect the stored stage), and
the option values are copied into it: the level for compression kinds, the
max window for the bit-width-reduction and positive-delta kinds. -/
theorem C5_option_copy (st : List LtFilter) (cls : FilterClass) (l : Int)
    (w : Nat) (h : appendable (.filt cls l w) = true) :
    FilterList.append st (.filt cls l w) =
      .ok (st ++ [stageOf (.filt cls l w)]) ∧
    (isCompressionFilter cls = true →
      (stageOf (.filt cls l w)).compressionLevel = some l) ∧
    (cls = .BitWidthReductionFilter →
      (stageOf (.filt cls l w)).bitWidthMaxWindow = some w) ∧
    (cls = .PositiveDeltaFilter →
      (stageOf (.filt cls l w)).positiveDeltaMaxWindow = some w) := by
  refine ⟨append_ok_of_appendable st _ h, ?_, ?_, ?_⟩
  · intro hc
    cases cls <;> simp_all [stageOf, isCompressionFilter, filtype_cls_to_enum]
  · rintro rfl; rfl
  · rintro rfl; rfl

theorem C5_witness :
    FilterList.append [] (PyObj.filt .GzipFilter 5 7) =
      .ok [stageOf (PyObj.filt .GzipFilter 5 7)] ∧
    (stageOf (PyObj.filt .GzipFilter 5 7)).compressionLevel = some 5 ∧
    (stageOf (PyObj.filt .BitWidthReductionFilter 0 1024)).bitWidthMaxWindow =
      some 1024 :=
  have h1 := C5_option_copy [] .GzipFilter 5 7 (by decide)
  have h2 := C5_option_copy [] .BitWidthReductionFilter 0 1024 (by decide)
  ⟨h1.1, h1.2.1 rfl, h2.2.2.1 rfl⟩

/-- C6 counterexample: constructing a `FilterList` with `chunksize=0`
succeeds with no error and records the zero value, refuting the claim that
a zero chunk size is never accepted. -/
theorem C6_counterexample :
    (postInit none (some 0)).2 = none ∧
    (postInit none (some 0)).1.chunksize = some 0 :=
  ⟨rfl, rfl⟩

/-- C6 amended: the source performs no chunk-size validation at all —
every chunksize value, zero included, is accepted and merely recorded in
the `chunksize` dataclass field. -/
theorem C6_amended (cz : Option Int) :
    (postInit none cz).2 = none ∧ (postInit none cz).1.chunksize = cz :=
  ⟨rfl, rfl⟩

/-- C7: the lookup table binds `NoOpFilter` to the null sentinel (Python
`None`) rather than a real enum value — and the internal stage built for a
`NoOpFilter` carries that null filter type — while each of the other
twelve concrete classes is bound to a real enum value, and the table is
injective on its thirteen keys (so those twelve values are distinct). -/
theorem C7_noop_sentinel :
    filtype_cls_to_enum .NoOpFilter = some none ∧
    (∀ c : FilterClass, c ≠ .NoOpFilter → c ≠ .UserDefined →
      ∃ t, filtype_cls_to_enum c = some (some t)) ∧
    (∀ c c' : FilterClass, c ≠ .UserDefined → c' ≠ .UserDefined →
      filtype_cls_to_enum c = filtype_cls_to_enum c' → c = c') ∧
    ∀ (l : Int) (w : Nat), (stageOf (.filt .NoOpFilter l w)).filtype = none :=
  ⟨rfl, by decide, by decide, fun _ _ => rfl⟩

theorem C7_witness :
    (∃ t, filtype_cls_to_enum .GzipFilter = some (some t)) ∧
    (stageOf (.filt .NoOpFilter 0 0)).filtype = none :=
  ⟨C7_noop_sentinel.2.1 .GzipFilter (by decide) (by decide),
   C7_noop_sentinel.2.2.2 0 0⟩

/-- C8: an instance of the `Filter` base class whose concrete type is not
a key of the lookup table (a user-defined subclass) passes the isinstance
guard and then `append` fails with the unhandled dictionary `KeyError`
from filter.py:109, not with the guard's documented validation error. -/
theorem C8_user_subclass_keyerror (st : List LtFilter) (l : Int) (w : Nat) :
    isFilterInstance (.filt .UserDefined l w) = true ∧
    FilterList.append st (.filt .UserDefined l w) = .error .keyError ∧
    isGuardFailure (FilterList.append st (.filt .UserDefined l w)) = false :=
  ⟨rfl, rfl, rfl⟩

/-- C9: construction checks neither the range nor the presence of
`chunksize` — the outcome and the native stage list are independent of the
chunksize argument, zero and negative values succeed, and the value is
only kept in the dataclass field, never forwarded to the native list. -/
theorem C9_chunksize_unchecked (fs : Option (List PyObj)) (cz cz' : Option Int) :
    (postInit fs cz).2 = (postInit fs cz').2 ∧
    (postInit fs cz).1.nativeStages = (postInit fs cz').1.nativeStages ∧
    (postInit none (some 0)).2 = none ∧
    (postInit none (some (-5))).2 = none ∧
    (postInit fs cz).1.chunksize = cz := by
  cases fs with
  | none => exact ⟨rfl, rfl, rfl, rfl, rfl⟩
  | some l =>
      by_cases hl : l = [] <;> simp [postInit, hl]

/-- C10: construction is not atomic on error — when the first `i` elements
of `filters` are appendable and the next one is not a `Filter` instance,
`__post_init__` raises the guard error after those `i` elements have been
appended, leaving the native filter list populated with exactly those `i`
stages. -/
theorem C10_partial_construction (pre rest : List PyObj) (cz : Option Int)
    (h : ∀ x ∈ pre, appendable x = true) :
    (postInit (some (pre ++ PyObj.nonFilter :: rest)) cz).2 =
      some (.valueError "filter argument must be a TileDB filter objects") ∧
    (postInit (some (pre ++ PyObj.nonFilter :: rest)) cz).1.nativeStages =
      pre.map stageOf ∧
    (pre.map stageOf).length = pre.length := by
  have hne : pre ++ PyObj.nonFilter :: rest ≠ [] := by
    simp
  simp only [postInit, if_neg hne, appendAll_guard_error pre rest [] h]
  simp

theorem C10_witness :
    (postInit (some [PyObj.filt .GzipFilter 5 0, PyObj.nonFilter]) none).2 =
      some (.valueError "filter argument must be a TileDB filter objects") ∧
    (postInit (some [PyObj.filt .GzipFilter 5 0, PyObj.nonFilter]) none).1.nativeStages =
      [PyObj.filt .GzipFilter 5 0].map stageOf :=
  have h := C10_partial_construction [PyObj.filt .GzipFilter 5 0] [] none
    (by decide)
  ⟨h.1, h.2.1⟩

end TileDBPy
